import Mathlib

/-!
Shallow embedding of the statistics/derivation core of the COVID-19
dashboard repository (files `src/utils.py` and `src/api_client.py`).

Numbers: Python ints are modelled as `ℤ`, Python floats produced by the
pure rational formulas as `ℚ`, and quantities whose computation uses
transcendental functions (`**` with fractional exponent, `np.log`,
`np.exp`) as `ℝ`.  A pandas `DataFrame` of the historical series is
modelled as a `List` of row structures; a single numeric column is a
`List ℤ` or `List ℚ`.
-/

namespace PDS

/-- Mean of a list of rationals, `sum / count` (pandas `Series.mean`).
On the empty list this yields `0` (division by zero in `ℚ`); every use
below is guarded so the list is non-empty, mirroring the guards in the
source. -/
def listMean (xs : List ℚ) : ℚ := xs.sum / (xs.length : ℚ)

/-- Embedding of `utils.calculate_cfr` (src/utils.py:43):
`0.0` when `cases == 0`, else `(deaths / cases) * 100`. -/
def calculate_cfr (deaths cases : ℤ) : ℚ :=
  if cases = 0 then 0 else ((deaths : ℚ) / (cases : ℚ)) * 100

/-- Embedding of `utils.calculate_recovery_rate` (src/utils.py:61). -/
def calculate_recovery_rate (recovered cases : ℤ) : ℚ :=
  if cases = 0 then 0 else ((recovered : ℚ) / (cases : ℚ)) * 100

/-- Embedding of `utils.calculate_active_rate` (src/utils.py:72). -/
def calculate_active_rate (active cases : ℤ) : ℚ :=
  if cases = 0 then 0 else ((active : ℚ) / (cases : ℚ)) * 100

/-- Embedding of `utils.calculate_herd_immunity_threshold`
(src/utils.py:158): `0.0` when `r0 <= 1`, else `(1 - 1/r0) * 100`. -/
def calculate_herd_immunity_threshold (r0 : ℚ) : ℚ :=
  if r0 ≤ 1 then 0 else (1 - 1 / r0) * 100

/-- Embedding of `utils.calculate_rolling_average` (src/utils.py:83),
which delegates to pandas `Series.rolling(window=window, min_periods=1).mean()`
on one column.  pandas rejects a non-positive window (`window < 0` fails
window validation; `window = 0` fails the `min_periods <= window` check),
raising `ValueError`; the spec names this failure `InvalidWindowError`,
and we model it as the `Except.error` branch.  For `window ≥ 1` the
result at position `i` is the mean of the trailing slice of the first
`i+1` elements of length `min window (i+1)` (never empty because
`min_periods = 1 ≤ i+1`). -/
def calculate_rolling_average (xs : List ℚ) (window : ℤ) :
    Except String (List ℚ) :=
  if window < 1 then Except.error "InvalidWindowError"
  else Except.ok <| (List.range xs.length).map fun i =>
    listMean ((xs.take (i + 1)).drop (i + 1 - window.toNat))

/-- Embedding of `utils.calculate_r0_estimate` (src/utils.py:98) on the
`Kasus_Baru` column, for generation time `G ≥ 1` (the Python default is
5; with `G = 0` the source raises `ZeroDivisionError` at
`generation_time / generation_time`, so that case is excluded by
hypothesis in the theorems).  `df.tail(n)` is `List.drop (length - n)`;
`ratio ** (G / G)` is `ratio ** 1.0 = ratio`, kept as in the source. -/
def calculate_r0_estimate (kasusBaru : List ℚ) (G : ℕ) : ℚ :=
  if kasusBaru.length < G * 2 then 1
  else if listMean ((kasusBaru.drop (kasusBaru.length - G * 2)).take G) ≤ 0 then 1
  else
    max (1 / 10) (min 10
      (listMean ((kasusBaru.drop (kasusBaru.length - G * 2)).drop G) /
        listMean ((kasusBaru.drop (kasusBaru.length - G * 2)).take G)))

/-- Embedding of `utils.get_trend_direction` (src/utils.py:175) on one
column: the source returns the strings "naik" (rising), "turun"
(falling), "stabil" (stable). -/
def get_trend_direction (xs : List ℚ) (days : ℕ) : String :=
  if xs.length < days * 2 then "stabil"
  else if listMean ((xs.drop (xs.length - days * 2)).take days) = 0 then "stabil"
  else if (listMean ((xs.drop (xs.length - days * 2)).drop days) -
        listMean ((xs.drop (xs.length - days * 2)).take days)) /
        listMean ((xs.drop (xs.length - days * 2)).take days) > 1 / 10 then "naik"
  else if (listMean ((xs.drop (xs.length - days * 2)).drop days) -
        listMean ((xs.drop (xs.length - days * 2)).take days)) /
        listMean ((xs.drop (xs.length - days * 2)).take days) < -(1 / 10) then "turun"
  else "stabil"

/-- Embedding of the transcendental part of `utils.calculate_doubling_time`
(src/utils.py:129): the growth rate `(end/start) ** (1/14) - 1` over `ℝ`
(real-power for the float `**`). -/
noncomputable def growthRate (startCases endCases : ℚ) : ℝ :=
  ((endCases : ℝ) / (startCases : ℝ)) ^ ((1 : ℝ) / 14) - 1

/-- Embedding of `utils.calculate_doubling_time` (src/utils.py:129) on
the cumulative `Kasus` column.  `df.tail(14)` is `drop (length - 14)`;
`recent.iloc[0]` / `recent.iloc[-1]` are `head?` / `getLast?`; Python
`None` is `Option.none`; `np.log` is `Real.log`. -/
noncomputable def calculate_doubling_time (kasus : List ℚ) : Option ℝ :=
  if kasus.length < 14 then none
  else
    let recent := kasus.drop (kasus.length - 14)
    match recent.head?, recent.getLast? with
    | some startCases, some endCases =>
      if startCases ≤ 0 ∨ endCases ≤ startCases then none
      else if growthRate startCases endCases ≤ 0 then none
      else some (Real.log 2 / Real.log (1 + growthRate startCases endCases))
    | _, _ => none

/-- One parsed row of the historical series before delta derivation:
columns `Tanggal` (date, as an integer day ordinal), `Kasus`,
`Kematian`, `Sembuh` (cumulative counts), as built in
`api_client.get_historical_df` (src/api_client.py:108-121). -/
structure Row0 where
  tanggal : ℤ
  kasus : ℤ
  kematian : ℤ
  sembuh : ℤ
deriving DecidableEq, Repr

/-- A full row of the historical `DataFrame` after
`api_client.get_historical_df` adds the daily-delta columns
`Kasus_Baru`, `Kematian_Baru`, `Sembuh_Baru` (src/api_client.py:132-134). -/
structure Row where
  tanggal : ℤ
  kasus : ℤ
  kematian : ℤ
  sembuh : ℤ
  kasusBaru : ℤ
  kematianBaru : ℤ
  sembuhBaru : ℤ
deriving DecidableEq, Repr

/-- Tail of the delta derivation `diff().fillna(0).clip(lower=0)`
(src/api_client.py:132): given the previous cumulative value, each
element becomes `max 0 (current - previous)`. -/
def deltasAux (prev : ℤ) : List ℤ → List ℤ
  | [] => []
  | y :: ys => max 0 (y - prev) :: deltasAux y ys

/-- Embedding of one column's derivation
`df[c].diff().fillna(0).clip(lower=0).astype(int)`
(src/api_client.py:132-134): the first row's `diff` is `NaN`, turned
into `0` by `fillna(0)`; later rows are clamped differences. -/
def dailyDeltas : List ℤ → List ℤ
  | [] => []
  | x :: xs => 0 :: deltasAux x xs

/-- Modelled from the spec: the exact successive differences of a
cumulative column, with the first row's delta defined as 0 and no
clamping ("the derived daily deltas equal the exact differences").
Used only to compare `dailyDeltas` against the spec's wording on
monotone inputs. -/
def exactDiffsAux (prev : ℤ) : List ℤ → List ℤ
  | [] => []
  | y :: ys => (y - prev) :: exactDiffsAux y ys

/-- Modelled from the spec: see `exactDiffsAux`. -/
def exactDiffs : List ℤ → List ℤ
  | [] => []
  | x :: xs => 0 :: exactDiffsAux x xs

/-- Delta derivation step of `api_client.get_historical_df`
(src/api_client.py:132-134), row-structured: attaches to each sorted
row the three clamped daily deltas; the helper carries the previous
row. -/
def addDeltasAux (prev : Row0) : List Row0 → List Row
  | [] => []
  | r :: rs =>
    ⟨r.tanggal, r.kasus, r.kematian, r.sembuh,
      max 0 (r.kasus - prev.kasus),
      max 0 (r.kematian - prev.kematian),
      max 0 (r.sembuh - prev.sembuh)⟩ :: addDeltasAux r rs

/-- See `addDeltasAux`; the first row's deltas are 0. -/
def addDeltas : List Row0 → List Row
  | [] => []
  | r :: rs => ⟨r.tanggal, r.kasus, r.kematian, r.sembuh, 0, 0, 0⟩ :: addDeltasAux r rs

/-- One raw entry of the upstream timeline keyed by a date string
(src/api_client.py:106-123): `date?` is the result of
`datetime.strptime` on the key — `none` models a parse failure, in
which case the source drops the row (`except Exception: continue`). -/
structure RawEntry where
  date? : Option ℤ
  kasus : ℤ
  kematian : ℤ
  sembuh : ℤ

/-- The row-parsing loop of `api_client.get_historical_df`
(src/api_client.py:108-123): rows whose date fails to parse are
dropped silently. -/
def parseRows (raw : List RawEntry) : List Row0 :=
  raw.filterMap fun e => e.date?.map fun d => ⟨d, e.kasus, e.kematian, e.sembuh⟩

/-- `df.sort_values("Tanggal")` (src/api_client.py:129): sort the
parsed rows ascending by date. -/
def sortByDate (rows : List Row0) : List Row0 :=
  rows.mergeSort fun a b => a.tanggal ≤ b.tanggal

/-- The store-building part of `api_client.get_historical_df`
(src/api_client.py:108-136), split out as the spec's
`build(raw_rows) -> TimeSeriesStore` contract: parse, check
non-emptiness (`if not rows`, the spec's `EmptyDataError`), sort by
date, derive clamped deltas. -/
def buildStore (raw : List RawEntry) : Except String (List Row) :=
  let rows := parseRows raw
  if rows = [] then Except.error "EmptyDataError"
  else Except.ok (addDeltas (sortByDate rows))

/-- Daily new cases of `api_client._get_sample_historical_df`
(src/api_client.py:151-154): `(base_curve + noise).clip(min=1).astype(int)`
on day `d`, where `base_curve = 100 * exp(-((d - 150)^2) / 5000)` and
`noise d` models the day-`d` draw of `np.random.normal(0, 10, 365)`
under `np.random.seed(42)` — the seeded generator is a fixed stream, so
it enters the model as a function argument.  `astype(int)` truncates,
and the clipped value is ≥ 1, so it is `Int.floor`. -/
noncomputable def sampleDaily (noise : ℕ → ℝ) (d : ℕ) : ℤ :=
  ⌊max 1 (100 * Real.exp (-(((d : ℝ) - 150) ^ 2) / 5000) + noise d)⌋

/-- Cumulative cases of the sample generator on day `d`:
`np.cumsum(daily_cases)` (src/api_client.py:156). -/
noncomputable def sampleCumulative (noise : ℕ → ℝ) (d : ℕ) : ℤ :=
  ((List.range (d + 1)).map (sampleDaily noise)).sum

/-- Embedding of `api_client._get_sample_historical_df`
(src/api_client.py:139-170): 365 rows dated from day 0; cumulative
deaths and recoveries are fixed fractions `2.5%` / `85%` of cumulative
cases, truncated (`astype(int)` on non-negative values is `Int.floor`),
and likewise for the per-day columns. -/
noncomputable def sampleHistoricalDf (noise : ℕ → ℝ) : List Row :=
  (List.range 365).map fun (d : ℕ) =>
    ⟨(d : ℤ),
      sampleCumulative noise d,
      ⌊(sampleCumulative noise d : ℝ) * (25 / 1000)⌋,
      ⌊(sampleCumulative noise d : ℝ) * (85 / 100)⌋,
      sampleDaily noise d,
      ⌊(sampleDaily noise d : ℝ) * (25 / 1000)⌋,
      ⌊(sampleDaily noise d : ℝ) * (85 / 100)⌋⟩

/-- Embedding of `api_client.get_historical_df` (src/api_client.py:90-136)
from raw timeline entries onward: when no valid rows survive parsing the
source returns the seeded sample generator's output
(`if not rows: return _get_sample_historical_df()`), otherwise the built
store. -/
noncomputable def get_historical_df (raw : List RawEntry) (noise : ℕ → ℝ) : List Row :=
  match buildStore raw with
  | Except.error _ => sampleHistoricalDf noise
  | Except.ok s => s

/-- Embedding of `utils.filter_by_date_range` (src/utils.py:217):
keeps rows with `start_date <= Tanggal` when `start_date` is given and
`Tanggal <= end_date` when `end_date` is given; an empty frame is
returned unchanged. -/
def filter_by_date_range (df : List Row) (startDate endDate : Option ℤ) : List Row :=
  if df = [] then df
  else
    let r1 := match startDate with
      | some s => df.filter fun r => s ≤ r.tanggal
      | none => df
    match endDate with
    | some e => r1.filter fun r => r.tanggal ≤ e
    | none => r1

/-- Smallest `Tanggal` in a store (its own full range's left end), 0 on
an empty store; used only to state the round-trip property. -/
def storeMinDate : List Row → ℤ
  | [] => 0
  | r :: rs => rs.foldl (fun m s => min m s.tanggal) r.tanggal

/-- Largest `Tanggal` in a store, 0 on an empty store. -/
def storeMaxDate : List Row → ℤ
  | [] => 0
  | r :: rs => rs.foldl (fun m s => max m s.tanggal) r.tanggal

/-- Maximum of an integer column, 0 on the empty column (every use is
guarded non-empty). -/
def listMax : List ℤ → ℤ
  | [] => 0
  | x :: xs => xs.foldl max x

/-- Embedding of pandas `Series.idxmax` on a default integer index
(src/utils.py:296): the position of the first occurrence of the
maximum ("if the maximum is achieved in multiple locations, the first
row position is returned"). -/
def idxmax (xs : List ℤ) : ℕ :=
  xs.findIdx fun v => v = listMax xs

/-- Embedding of `utils.get_peak_info` (src/utils.py:281) for a column
present in the frame, modelled as a total projection `col` out of
`Row` (the source's missing-column branch, which returns the
`{date: None, value: 0}` sentinel, corresponds to `none` here together
with the empty-frame guard). -/
def get_peak_info (df : List Row) (col : Row → ℤ) : Option (ℤ × ℤ) :=
  match df[idxmax (df.map col)]? with
  | some r => some (r.tanggal, col r)
  | none => none

/-! ## Helper lemmas -/

lemma deltasAux_eq_zipWith (p : ℤ) (ys : List ℤ) :
    deltasAux p ys = List.zipWith (fun a b => max 0 (b - a)) (p :: ys) ys := by
  induction ys generalizing p with
  | nil => rfl
  | cons y ys ih => simp [deltasAux, ih]

lemma deltasAux_length (p : ℤ) (ys : List ℤ) :
    (deltasAux p ys).length = ys.length := by
  induction ys generalizing p with
  | nil => rfl
  | cons y ys ih => simp [deltasAux, ih]

lemma dailyDeltas_length (xs : List ℤ) : (dailyDeltas xs).length = xs.length := by
  cases xs with
  | nil => rfl
  | cons x t => simp [dailyDeltas, deltasAux_length]

lemma deltasAux_nonneg (p : ℤ) (ys : List ℤ) : ∀ d ∈ deltasAux p ys, 0 ≤ d := by
  induction ys generalizing p with
  | nil => intro d hd; simp [deltasAux] at hd
  | cons y ys ih =>
    intro d hd
    rcases (by simpa [deltasAux] using hd : d = max 0 (y - p) ∨ d ∈ deltasAux y ys) with h | h
    · exact h ▸ le_max_left 0 (y - p)
    · exact ih y d h

lemma deltasAux_of_chain (p : ℤ) (ys : List ℤ)
    (h : List.Chain' (· ≤ ·) (p :: ys)) : deltasAux p ys = exactDiffsAux p ys := by
  induction ys generalizing p with
  | nil => rfl
  | cons y ys ih =>
    rcases List.chain'_cons.mp h with ⟨hpy, hrest⟩
    simp only [deltasAux, exactDiffsAux, ih y hrest]
    rw [max_eq_right (sub_nonneg.mpr hpy)]

lemma addDeltasAux_map_kasus (p : Row0) (rs : List Row0) :
    (addDeltasAux p rs).map (·.kasus) = rs.map (·.kasus) := by
  induction rs generalizing p with
  | nil => rfl
  | cons r rs ih => simp [addDeltasAux, ih]

lemma addDeltasAux_map_kematian (p : Row0) (rs : List Row0) :
    (addDeltasAux p rs).map (·.kematian) = rs.map (·.kematian) := by
  induction rs generalizing p with
  | nil => rfl
  | cons r rs ih => simp [addDeltasAux, ih]

lemma addDeltasAux_map_sembuh (p : Row0) (rs : List Row0) :
    (addDeltasAux p rs).map (·.sembuh) = rs.map (·.sembuh) := by
  induction rs generalizing p with
  | nil => rfl
  | cons r rs ih => simp [addDeltasAux, ih]

lemma addDeltasAux_map_kasusBaru (p : Row0) (rs : List Row0) :
    (addDeltasAux p rs).map (·.kasusBaru) = deltasAux p.kasus (rs.map (·.kasus)) := by
  induction rs generalizing p with
  | nil => rfl
  | cons r rs ih => simp [addDeltasAux, deltasAux, ih]

lemma addDeltasAux_map_kematianBaru (p : Row0) (rs : List Row0) :
    (addDeltasAux p rs).map (·.kematianBaru) = deltasAux p.kematian (rs.map (·.kematian)) := by
  induction rs generalizing p with
  | nil => rfl
  | cons r rs ih => simp [addDeltasAux, deltasAux, ih]

lemma addDeltasAux_map_sembuhBaru (p : Row0) (rs : List Row0) :
    (addDeltasAux p rs).map (·.sembuhBaru) = deltasAux p.sembuh (rs.map (·.sembuh)) := by
  induction rs generalizing p with
  | nil => rfl
  | cons r rs ih => simp [addDeltasAux, deltasAux, ih]

lemma addDeltas_columns (rows : List Row0) :
    (addDeltas rows).map (·.kasus) = rows.map (·.kasus) ∧
    (addDeltas rows).map (·.kematian) = rows.map (·.kematian) ∧
    (addDeltas rows).map (·.sembuh) = rows.map (·.sembuh) ∧
    (addDeltas rows).map (·.kasusBaru) = dailyDeltas (rows.map (·.kasus)) ∧
    (addDeltas rows).map (·.kematianBaru) = dailyDeltas (rows.map (·.kematian)) ∧
    (addDeltas rows).map (·.sembuhBaru) = dailyDeltas (rows.map (·.sembuh)) := by
  cases rows with
  | nil => exact ⟨rfl, rfl, rfl, rfl, rfl, rfl⟩
  | cons r rs =>
    refine ⟨?_, ?_, ?_, ?_, ?_, ?_⟩ <;>
      simp [addDeltas, dailyDeltas, addDeltasAux_map_kasus, addDeltasAux_map_kematian,
        addDeltasAux_map_sembuh, addDeltasAux_map_kasusBaru,
        addDeltasAux_map_kematianBaru, addDeltasAux_map_sembuhBaru]

lemma foldl_min_bounds (l : List Row) (a : ℤ) :
    l.foldl (fun m s => min m s.tanggal) a ≤ a ∧
    ∀ r ∈ l, l.foldl (fun m s => min m s.tanggal) a ≤ r.tanggal := by
  induction l generalizing a with
  | nil => exact ⟨le_refl a, by simp⟩
  | cons x t ih =>
    refine ⟨le_trans (ih (min a x.tanggal)).1 (min_le_left _ _), ?_⟩
    intro r hr
    rcases List.mem_cons.mp hr with rfl | h
    · exact le_trans (ih (min a r.tanggal)).1 (min_le_right _ _)
    · exact (ih (min a x.tanggal)).2 r h

lemma foldl_max_bounds (l : List Row) (a : ℤ) :
    a ≤ l.foldl (fun m s => max m s.tanggal) a ∧
    ∀ r ∈ l, r.tanggal ≤ l.foldl (fun m s => max m s.tanggal) a := by
  induction l generalizing a with
  | nil => exact ⟨le_refl a, by simp⟩
  | cons x t ih =>
    refine ⟨le_trans (le_max_left _ _) (ih (max a x.tanggal)).1, ?_⟩
    intro r hr
    rcases List.mem_cons.mp hr with rfl | h
    · exact le_trans (le_max_right _ _) (ih (max a r.tanggal)).1
    · exact (ih (max a x.tanggal)).2 r h

lemma storeMinDate_le (df : List Row) : ∀ r ∈ df, storeMinDate df ≤ r.tanggal := by
  cases df with
  | nil => simp
  | cons x t =>
    intro r hr
    rcases List.mem_cons.mp hr with rfl | h
    · exact (foldl_min_bounds t r.tanggal).1
    · exact (foldl_min_bounds t x.tanggal).2 r h

lemma le_storeMaxDate (df : List Row) : ∀ r ∈ df, r.tanggal ≤ storeMaxDate df := by
  cases df with
  | nil => simp
  | cons x t =>
    intro r hr
    rcases List.mem_cons.mp hr with rfl | h
    · exact (foldl_max_bounds t r.tanggal).1
    · exact (foldl_max_bounds t x.tanggal).2 r h

/-! ## Claim theorems -/

/-- C1: for every ingested series, each derived daily-delta column
equals `max 0 (current - previous)` with the first row's delta 0;
consequently every delta is non-negative, and on monotonically
non-decreasing cumulative inputs the deltas are the exact successive
differences.  The first block states this for one column
(`dailyDeltas`, the embedding of
`diff().fillna(0).clip(lower=0).astype(int)`), the second block states
that every store built by `get_historical_df` derives all three delta
columns this way. -/
theorem claim_C1_daily_deltas :
    (∀ xs : List ℤ,
      (dailyDeltas xs).length = xs.length ∧
      (∀ h0 : 0 < (dailyDeltas xs).length, (dailyDeltas xs).get ⟨0, h0⟩ = 0) ∧
      (∀ i (hx : i + 1 < xs.length) (hd : i + 1 < (dailyDeltas xs).length),
        (dailyDeltas xs).get ⟨i + 1, hd⟩ =
          max 0 (xs.get ⟨i + 1, hx⟩ - xs.get ⟨i, Nat.lt_of_succ_lt hx⟩)) ∧
      (∀ d ∈ dailyDeltas xs, 0 ≤ d) ∧
      (List.Chain' (· ≤ ·) xs → dailyDeltas xs = exactDiffs xs)) ∧
    (∀ raw s, buildStore raw = Except.ok s →
      s.map (·.kasusBaru) = dailyDeltas (s.map (·.kasus)) ∧
      s.map (·.kematianBaru) = dailyDeltas (s.map (·.kematian)) ∧
      s.map (·.sembuhBaru) = dailyDeltas (s.map (·.sembuh))) := by
  constructor
  · intro xs
    refine ⟨dailyDeltas_length xs, ?_, ?_, ?_, ?_⟩
    · intro h0
      cases xs with
      | nil => simp [dailyDeltas] at h0
      | cons x t => rfl
    · intro i hx hd
      cases xs with
      | nil => exact absurd hx (by simp)
      | cons x t =>
        simp only [dailyDeltas, deltasAux_eq_zipWith, List.get_eq_getElem,
          List.getElem_cons_succ]
        rw [List.getElem_zipWith]
    · intro d hd
      cases xs with
      | nil => simp [dailyDeltas] at hd
      | cons x t =>
        rcases (by simpa [dailyDeltas] using hd : d = 0 ∨ d ∈ deltasAux x t) with h | h
        · simp [h]
        · exact deltasAux_nonneg x t d h
    · intro hchain
      cases xs with
      | nil => rfl
      | cons x t => simp [dailyDeltas, exactDiffs, deltasAux_of_chain x t hchain]
  · intro raw s hs
    have h : addDeltas (sortByDate (parseRows raw)) = s := by
      by_cases hempty : parseRows raw = []
      · simp [buildStore, hempty] at hs
      · simpa [buildStore, hempty] using hs
    rcases addDeltas_columns (sortByDate (parseRows raw)) with ⟨h1, h2, h3, h4, h5, h6⟩
    rw [h] at h1 h2 h3 h4 h5 h6
    exact ⟨by rw [h4, ← h1], by rw [h5, ← h2], by rw [h6, ← h3]⟩

/-- C6: `filter_by_date_range` keeps exactly the rows whose date lies
in the inclusive range, treats an omitted bound as unbounded on that
side, returns an empty store (not an error) when no rows qualify, and
filtering a store to its own full date range returns the store
row-for-row. -/
theorem claim_C6_filter_range (df : List Row) (a b : ℤ) :
    (filter_by_date_range df (some a) (some b) =
      df.filter fun r => decide (a ≤ r.tanggal ∧ r.tanggal ≤ b)) ∧
    (filter_by_date_range df (some a) none =
      df.filter fun r => decide (a ≤ r.tanggal)) ∧
    (filter_by_date_range df none (some b) =
      df.filter fun r => decide (r.tanggal ≤ b)) ∧
    (filter_by_date_range df none none = df) ∧
    ((∀ r ∈ df, ¬(a ≤ r.tanggal ∧ r.tanggal ≤ b)) →
      filter_by_date_range df (some a) (some b) = []) ∧
    (df ≠ [] →
      filter_by_date_range df (some (storeMinDate df)) (some (storeMaxDate df)) = df) := by
  have hboth : ∀ (lo hi : ℤ), filter_by_date_range df (some lo) (some hi) =
      df.filter fun r => decide (lo ≤ r.tanggal ∧ r.tanggal ≤ hi) := by
    intro lo hi
    by_cases hdf : df = []
    · simp [filter_by_date_range, hdf]
    · simp only [filter_by_date_range, hdf, if_neg, ite_false, List.filter_filter]
      congr 1
      funext r
      rw [Bool.decide_and]
      exact Bool.and_comm _ _
  refine ⟨hboth a b, ?_, ?_, ?_, ?_, ?_⟩
  · by_cases hdf : df = [] <;> simp [filter_by_date_range, hdf]
  · by_cases hdf : df = [] <;> simp [filter_by_date_range, hdf]
  · by_cases hdf : df = [] <;> simp [filter_by_date_range, hdf]
  · intro hnone
    rw [hboth a b]
    refine List.filter_eq_nil_iff.mpr ?_
    intro r hr
    simpa using hnone r hr
  · intro _
    rw [hboth (storeMinDate df) (storeMaxDate df)]
    refine List.filter_eq_self.mpr ?_
    intro r hr
    simpa using ⟨storeMinDate_le df r hr, le_storeMaxDate df r hr⟩

/-- Witness for C6: the round trip on a concrete two-row store. -/
theorem claim_C6_filter_range_witness :
    ([⟨1, 5, 0, 0, 0, 0, 0⟩, ⟨4, 9, 1, 2, 4, 1, 2⟩] : List Row) ≠ [] ∧
      filter_by_date_range [⟨1, 5, 0, 0, 0, 0, 0⟩, ⟨4, 9, 1, 2, 4, 1, 2⟩]
          (some (storeMinDate [⟨1, 5, 0, 0, 0, 0, 0⟩, ⟨4, 9, 1, 2, 4, 1, 2⟩]))
          (some (storeMaxDate [⟨1, 5, 0, 0, 0, 0, 0⟩, ⟨4, 9, 1, 2, 4, 1, 2⟩])) =
        [⟨1, 5, 0, 0, 0, 0, 0⟩, ⟨4, 9, 1, 2, 4, 1, 2⟩] :=
  ⟨by decide,
    (claim_C6_filter_range [⟨1, 5, 0, 0, 0, 0, 0⟩, ⟨4, 9, 1, 2, 4, 1, 2⟩] 0 0).2.2.2.2.2
      (by decide)⟩

/-- Witness for C1: a monotone concrete series where the clamp is a
no-op and the deltas are the exact differences. -/
theorem claim_C1_daily_deltas_witness :
    List.Chain' (· ≤ ·) ([1, 3, 10] : List ℤ) ∧
      dailyDeltas [1, 3, 10] = exactDiffs [1, 3, 10] :=
  ⟨by norm_num [List.chain'_cons], (claim_C1_daily_deltas.1 [1, 3, 10]).2.2.2.2
    (by norm_num [List.chain'_cons])⟩

/-- C8: each of `case_fatality_rate` (`calculate_cfr`), `recovery_rate`
and `active_rate` returns 0.0 (not an error) when `cases = 0`, and
otherwise returns `(numerator / cases) * 100` exactly; in particular
`calculate_cfr 0 0 = 0.0` and `calculate_cfr 25 1000 = 2.5`. -/
theorem claim_C8_rates (deaths recovered active cases : ℤ) :
    (cases = 0 →
      calculate_cfr deaths cases = 0 ∧
      calculate_recovery_rate recovered cases = 0 ∧
      calculate_active_rate active cases = 0) ∧
    (cases ≠ 0 →
      calculate_cfr deaths cases = (deaths : ℚ) / (cases : ℚ) * 100 ∧
      calculate_recovery_rate recovered cases = (recovered : ℚ) / (cases : ℚ) * 100 ∧
      calculate_active_rate active cases = (active : ℚ) / (cases : ℚ) * 100) ∧
    calculate_cfr 0 0 = 0 ∧
    calculate_cfr 25 1000 = 5 / 2 := by
  refine ⟨fun h => ?_, fun h => ?_, by norm_num [calculate_cfr],
    by norm_num [calculate_cfr]⟩
  · simp [calculate_cfr, calculate_recovery_rate, calculate_active_rate, h]
  · simp [calculate_cfr, calculate_recovery_rate, calculate_active_rate, h]

/-- Witness for C8 at `deaths = 25`, `cases = 1000`. -/
theorem claim_C8_rates_witness :
    (1000 : ℤ) ≠ 0 ∧ calculate_cfr 25 1000 = (25 : ℚ) / 1000 * 100 :=
  ⟨by decide, ((claim_C8_rates 25 3 4 1000).2.1 (by decide)).1⟩

/-- C9: `herd_immunity_threshold r0` returns 0.0 for every `r0 ≤ 1` and
`(1 - 1/r0) * 100` for every `r0 > 1`; in particular 60.0 at
`r0 = 2.5` and 0.0 at `r0 = 0.8`. -/
theorem claim_C9_herd_immunity (r0 : ℚ) :
    (r0 ≤ 1 → calculate_herd_immunity_threshold r0 = 0) ∧
    (1 < r0 → calculate_herd_immunity_threshold r0 = (1 - 1 / r0) * 100) ∧
    calculate_herd_immunity_threshold (5 / 2) = 60 ∧
    calculate_herd_immunity_threshold (4 / 5) = 0 := by
  refine ⟨fun h => ?_, fun h => ?_, by norm_num [calculate_herd_immunity_threshold],
    by norm_num [calculate_herd_immunity_threshold]⟩
  · simp [calculate_herd_immunity_threshold, h]
  · simp [calculate_herd_immunity_threshold, not_le.mpr h]

/-- Witness for C9 at `r0 = 2.5`. -/
theorem claim_C9_herd_immunity_witness :
    (1 : ℚ) < 5 / 2 ∧
      calculate_herd_immunity_threshold (5 / 2) = (1 - 1 / (5 / 2)) * 100 :=
  ⟨by norm_num, (claim_C9_herd_immunity (5 / 2)).2.1 (by norm_num)⟩

/-- C7: `trend_direction` with parameter `days = D` returns "stabil"
("stable") whenever the series has fewer than `2 D` rows or the mean of
the first `D` of the last `2 D` rows is 0; otherwise, with
`change = (secondHalfMean - firstHalfMean) / firstHalfMean` (the second
half being the last `D` rows), it returns "naik" ("rising") exactly
when `change > 0.1`, "turun" ("falling") exactly when `change < -0.1`,
and "stabil" otherwise. -/
theorem claim_C7_trend_direction (xs : List ℚ) (D : ℕ) :
    (xs.length < D * 2 → get_trend_direction xs D = "stabil") ∧
    (D * 2 ≤ xs.length →
      (listMean ((xs.drop (xs.length - D * 2)).take D) = 0 →
        get_trend_direction xs D = "stabil") ∧
      (listMean ((xs.drop (xs.length - D * 2)).take D) ≠ 0 →
        (get_trend_direction xs D = "naik" ↔
          (listMean (xs.drop (xs.length - D)) -
            listMean ((xs.drop (xs.length - D * 2)).take D)) /
            listMean ((xs.drop (xs.length - D * 2)).take D) > 1 / 10) ∧
        (get_trend_direction xs D = "turun" ↔
          (listMean (xs.drop (xs.length - D)) -
            listMean ((xs.drop (xs.length - D * 2)).take D)) /
            listMean ((xs.drop (xs.length - D * 2)).take D) < -(1 / 10)) ∧
        (¬((listMean (xs.drop (xs.length - D)) -
            listMean ((xs.drop (xs.length - D * 2)).take D)) /
            listMean ((xs.drop (xs.length - D * 2)).take D) > 1 / 10) →
          ¬((listMean (xs.drop (xs.length - D)) -
            listMean ((xs.drop (xs.length - D * 2)).take D)) /
            listMean ((xs.drop (xs.length - D * 2)).take D) < -(1 / 10)) →
          get_trend_direction xs D = "stabil"))) := by
  constructor
  · intro h
    simp only [get_trend_direction, if_pos h]
  · intro hlen
    have hnlt : ¬xs.length < D * 2 := by omega
    have hrw : (xs.drop (xs.length - D * 2)).drop D = xs.drop (xs.length - D) := by
      rw [List.drop_drop]
      congr 1
      omega
    refine ⟨fun h0 => ?_, fun h0 => ?_⟩
    · simp only [get_trend_direction, if_neg hnlt, if_pos h0]
    · simp only [get_trend_direction, if_neg hnlt, if_neg h0, hrw]
      split_ifs with h1 h2
      · exact ⟨iff_of_true rfl h1, iff_of_false (by decide) (by linarith),
          fun hna _ => absurd h1 hna⟩
      · exact ⟨iff_of_false (by decide) h1, iff_of_true rfl h2,
          fun _ hnb => absurd h2 hnb⟩
      · exact ⟨iff_of_false (by decide) h1, iff_of_false (by decide) h2,
          fun _ _ => rfl⟩

/-- Witness for C7: a 3-row series with `days = 2` is shorter than
`2 × 2` and classifies as "stabil". -/
theorem claim_C7_trend_direction_witness :
    ([1, 2, 3] : List ℚ).length < 2 * 2 ∧
      get_trend_direction [1, 2, 3] 2 = "stabil" :=
  ⟨by decide, (claim_C7_trend_direction [1, 2, 3] 2).1 (by decide)⟩

/-- C3: `r0_estimate` returns exactly 1.0 on any series shorter than
`2 G` rows regardless of content; otherwise it takes the last `2 G`
points, returns 1.0 if the first half's mean of new cases is ≤ 0, and
otherwise returns `mean(second half) / mean(first half)` (the second
half being the last `G` points) clamped into `[0.1, 10.0]` — the
source's exponent `G / G = 1` makes the exponentiation a no-op.
`G ≥ 1` is required because at `G = 0` the source raises
`ZeroDivisionError` instead. -/
theorem claim_C3_r0_estimate (xs : List ℚ) (G : ℕ) (_hG : 1 ≤ G) :
    (xs.length < G * 2 → calculate_r0_estimate xs G = 1) ∧
    (G * 2 ≤ xs.length →
      (listMean ((xs.drop (xs.length - G * 2)).take G) ≤ 0 →
        calculate_r0_estimate xs G = 1) ∧
      (0 < listMean ((xs.drop (xs.length - G * 2)).take G) →
        calculate_r0_estimate xs G =
          max (1 / 10) (min 10
            (listMean (xs.drop (xs.length - G)) /
              listMean ((xs.drop (xs.length - G * 2)).take G))))) := by
  constructor
  · intro h
    simp only [calculate_r0_estimate, if_pos h]
  · intro hlen
    have hnlt : ¬xs.length < G * 2 := by omega
    have hrw : (xs.drop (xs.length - G * 2)).drop G = xs.drop (xs.length - G) := by
      rw [List.drop_drop]
      congr 1
      omega
    refine ⟨fun h0 => ?_, fun h0 => ?_⟩
    · simp only [calculate_r0_estimate, if_neg hnlt, if_pos h0]
    · simp only [calculate_r0_estimate, if_neg hnlt, if_neg (not_le.mpr h0), hrw]

/-- Witness for C3: a 3-row series with `G = 5` is shorter than
`2 × 5 = 10` and yields exactly 1. -/
theorem claim_C3_r0_estimate_witness :
    1 ≤ 5 ∧ ([3, 9, 27] : List ℚ).length < 5 * 2 ∧
      calculate_r0_estimate [3, 9, 27] 5 = 1 :=
  ⟨by decide, by decide, (claim_C3_r0_estimate [3, 9, 27] 5 (by decide)).1 (by decide)⟩

/-- C2: for every window `W ≥ 1`, `rolling_average` returns the
trailing simple moving average computed with `min_periods = 1`: at
position `i` near the start (`i + 1 ≤ W`) it averages the `i + 1`
points available so far (an `Except.ok` value with a positive divisor —
never an error, never NaN), and once `W ≤ i + 1` it averages the `W`
trailing points; for every `W < 1` the call fails with the spec's
`InvalidWindowError` rather than being silently clamped. -/
theorem claim_C2_rolling_average (xs : List ℚ) (W : ℤ) :
    (W < 1 → calculate_rolling_average xs W = Except.error "InvalidWindowError") ∧
    (1 ≤ W → ∃ ys, calculate_rolling_average xs W = Except.ok ys ∧
      ys.length = xs.length ∧
      (∀ i, i < xs.length → (i : ℤ) + 1 ≤ W →
        ys[i]? = some ((xs.take (i + 1)).sum / ((i : ℚ) + 1))) ∧
      (∀ i, i < xs.length → W ≤ (i : ℤ) + 1 →
        ys[i]? = some (((xs.take (i + 1)).drop (i + 1 - W.toNat)).sum / (W : ℚ)))) := by
  constructor
  · intro h
    simp only [calculate_rolling_average, if_pos h]
  · intro hW
    have hnlt : ¬W < 1 := not_lt.mpr hW
    refine ⟨(List.range xs.length).map fun i =>
      listMean ((xs.take (i + 1)).drop (i + 1 - W.toNat)),
      by simp only [calculate_rolling_average, if_neg hnlt], by simp, ?_, ?_⟩
    · intro i hi hle
      rw [List.getElem?_map, List.getElem?_range hi]
      simp only [Option.map_some']
      have h0 : i + 1 - W.toNat = 0 := by omega
      rw [h0, List.drop_zero]
      have hlen : (xs.take (i + 1)).length = i + 1 :=
        List.length_take_of_le (by omega)
      simp only [listMean, hlen]
      push_cast
      rfl
    · intro i hi hge
      rw [List.getElem?_map, List.getElem?_range hi]
      have hlen : ((xs.take (i + 1)).drop (i + 1 - W.toNat)).length = W.toNat := by
        rw [List.length_drop, List.length_take_of_le (by omega : i + 1 ≤ xs.length)]
        omega
      have hcast : ((W.toNat : ℕ) : ℚ) = (W : ℚ) := by
        have h1 : ((W.toNat : ℤ) : ℚ) = (W : ℚ) := by
          rw [Int.toNat_of_nonneg (by omega : (0 : ℤ) ≤ W)]
        rw [← h1]
        push_cast
        rfl
      simp only [Option.map_some']
      simp only [listMean, hlen, hcast]

/-- Witness for C2: a non-positive window on a concrete series fails
with the invalid-window error instead of being clamped. -/
theorem claim_C2_rolling_average_witness :
    (0 : ℤ) < 1 ∧
      calculate_rolling_average [1, 2, 3] 0 = Except.error "InvalidWindowError" :=
  ⟨by decide, (claim_C2_rolling_average [1, 2, 3] 0).1 (by decide)⟩

lemma foldl_max_mem (x : ℤ) (xs : List ℤ) : xs.foldl max x ∈ x :: xs := by
  induction xs generalizing x with
  | nil => simp
  | cons y ys ih =>
    rw [List.foldl_cons]
    rcases List.mem_cons.mp (ih (max x y)) with h1 | h1
    · rcases max_choice x y with hm | hm
      · rw [h1, hm]
        exact List.mem_cons_self x _
      · rw [h1, hm]
        exact List.mem_cons_of_mem x (List.mem_cons_self y _)
    · exact List.mem_cons_of_mem x (List.mem_cons_of_mem y h1)

lemma foldl_max_le_bounds (xs : List ℤ) (a : ℤ) :
    a ≤ xs.foldl max a ∧ ∀ y ∈ xs, y ≤ xs.foldl max a := by
  induction xs generalizing a with
  | nil => exact ⟨le_refl a, by simp⟩
  | cons x t ih =>
    rw [List.foldl_cons]
    refine ⟨le_trans (le_max_left a x) (ih (max a x)).1, ?_⟩
    intro y hy
    rcases List.mem_cons.mp hy with rfl | h
    · exact le_trans (le_max_right a y) (ih (max a y)).1
    · exact (ih (max a x)).2 y h

lemma listMax_mem (xs : List ℤ) (h : xs ≠ []) : listMax xs ∈ xs := by
  cases xs with
  | nil => exact absurd rfl h
  | cons x t => exact foldl_max_mem x t

lemma le_listMax (xs : List ℤ) : ∀ y ∈ xs, y ≤ listMax xs := by
  cases xs with
  | nil => simp
  | cons x t =>
    intro y hy
    rcases List.mem_cons.mp hy with rfl | h
    · exact (foldl_max_le_bounds t y).1
    · exact (foldl_max_le_bounds t x).2 y h

/-- C10: for every non-empty series containing the requested column
(modelled as a total projection `col`), `peak_info` returns the
earliest row among those attaining the column's maximum: the returned
pair is the date and value of a row whose value bounds every row, and
every strictly earlier row has a strictly smaller value. -/
theorem claim_C10_peak_info (df : List Row) (col : Row → ℤ) (hdf : df ≠ []) :
    ∃ (i : ℕ) (hi : i < df.length),
      get_peak_info df col = some ((df.get ⟨i, hi⟩).tanggal, col (df.get ⟨i, hi⟩)) ∧
      (∀ j (hj : j < df.length), col (df.get ⟨j, hj⟩) ≤ col (df.get ⟨i, hi⟩)) ∧
      (∀ j (hj : j < df.length), j < i → col (df.get ⟨j, hj⟩) < col (df.get ⟨i, hi⟩)) := by
  have hvne : df.map col ≠ [] := fun hc => hdf (List.map_eq_nil_iff.mp hc)
  have hmem : listMax (df.map col) ∈ df.map col := listMax_mem _ hvne
  have hex : ∃ v ∈ df.map col, (fun v => decide (v = listMax (df.map col))) v = true :=
    ⟨listMax (df.map col), hmem, by simp⟩
  have hilt : idxmax (df.map col) < (df.map col).length :=
    List.findIdx_lt_length_of_exists hex
  have hlen : (df.map col).length = df.length := List.length_map df col
  have hi : idxmax (df.map col) < df.length := hlen ▸ hilt
  have hilt2 : (df.map col).findIdx (fun v => decide (v = listMax (df.map col))) <
      (df.map col).length := hilt
  have hival : (df.map col)[idxmax (df.map col)] = listMax (df.map col) := by
    have := List.findIdx_getElem (w := hilt2)
    exact of_decide_eq_true this
  have hval : ∀ j (hj : j < df.length), (df.map col)[j] = col (df.get ⟨j, hj⟩) := by
    intro j hj
    rw [List.get_eq_getElem]
    exact List.getElem_map col
  refine ⟨idxmax (df.map col), hi, ?_, ?_, ?_⟩
  · have hidx : df[idxmax (df.map col)]? = some (df.get ⟨idxmax (df.map col), hi⟩) := by
      rw [List.get_eq_getElem]
      exact List.getElem?_eq_getElem hi
    simp only [get_peak_info, hidx]
  · intro j hj
    rw [← hval j hj, ← hval _ hi, hival]
    exact le_listMax _ _ (List.getElem_mem _)
  · intro j hj hlt
    have hne : (df.map col)[j] ≠ listMax (df.map col) := by
      have hlt2 : j < (df.map col).findIdx (fun v => decide (v = listMax (df.map col))) := hlt
      have hnp := List.not_of_lt_findIdx hlt2
      simpa using hnp
    have hle : (df.map col)[j] ≤ listMax (df.map col) := by
      have hjv : j < (df.map col).length := hlen ▸ hj
      exact le_listMax _ _ (List.getElem_mem hjv)
    rw [← hval j hj, ← hval _ hi, hival]
    exact lt_of_le_of_ne hle hne

/-- Witness for C10 on a concrete three-row store with a tied maximum
in the `Kasus_Baru` column. -/
theorem claim_C10_peak_info_witness :
    ([⟨0, 1, 0, 0, 1, 0, 0⟩, ⟨1, 6, 0, 0, 5, 0, 0⟩, ⟨2, 11, 0, 0, 5, 0, 0⟩] : List Row) ≠ [] ∧
      ∃ (i : ℕ)
        (hi : i < ([⟨0, 1, 0, 0, 1, 0, 0⟩, ⟨1, 6, 0, 0, 5, 0, 0⟩,
          ⟨2, 11, 0, 0, 5, 0, 0⟩] : List Row).length),
        get_peak_info [⟨0, 1, 0, 0, 1, 0, 0⟩, ⟨1, 6, 0, 0, 5, 0, 0⟩, ⟨2, 11, 0, 0, 5, 0, 0⟩]
            (·.kasusBaru) =
          some ((([⟨0, 1, 0, 0, 1, 0, 0⟩, ⟨1, 6, 0, 0, 5, 0, 0⟩,
              ⟨2, 11, 0, 0, 5, 0, 0⟩] : List Row).get ⟨i, hi⟩).tanggal,
            (([⟨0, 1, 0, 0, 1, 0, 0⟩, ⟨1, 6, 0, 0, 5, 0, 0⟩,
              ⟨2, 11, 0, 0, 5, 0, 0⟩] : List Row).get ⟨i, hi⟩).kasusBaru) ∧
        (∀ j (hj : j < ([⟨0, 1, 0, 0, 1, 0, 0⟩, ⟨1, 6, 0, 0, 5, 0, 0⟩,
            ⟨2, 11, 0, 0, 5, 0, 0⟩] : List Row).length),
          (([⟨0, 1, 0, 0, 1, 0, 0⟩, ⟨1, 6, 0, 0, 5, 0, 0⟩,
            ⟨2, 11, 0, 0, 5, 0, 0⟩] : List Row).get ⟨j, hj⟩).kasusBaru ≤
            (([⟨0, 1, 0, 0, 1, 0, 0⟩, ⟨1, 6, 0, 0, 5, 0, 0⟩,
              ⟨2, 11, 0, 0, 5, 0, 0⟩] : List Row).get ⟨i, hi⟩).kasusBaru) ∧
        (∀ j (hj : j < ([⟨0, 1, 0, 0, 1, 0, 0⟩, ⟨1, 6, 0, 0, 5, 0, 0⟩,
            ⟨2, 11, 0, 0, 5, 0, 0⟩] : List Row).length), j < i →
          (([⟨0, 1, 0, 0, 1, 0, 0⟩, ⟨1, 6, 0, 0, 5, 0, 0⟩,
            ⟨2, 11, 0, 0, 5, 0, 0⟩] : List Row).get ⟨j, hj⟩).kasusBaru <
            (([⟨0, 1, 0, 0, 1, 0, 0⟩, ⟨1, 6, 0, 0, 5, 0, 0⟩,
              ⟨2, 11, 0, 0, 5, 0, 0⟩] : List Row).get ⟨i, hi⟩).kasusBaru) :=
  ⟨by decide,
    claim_C10_peak_info [⟨0, 1, 0, 0, 1, 0, 0⟩, ⟨1, 6, 0, 0, 5, 0, 0⟩,
      ⟨2, 11, 0, 0, 5, 0, 0⟩] (·.kasusBaru) (by decide)⟩

lemma growthRate_pos (s e : ℚ) (hs : 0 < s) (hse : s < e) : 0 < growthRate s e := by
  have hgt : (1 : ℝ) < (e : ℝ) / (s : ℝ) := by
    rw [lt_div_iff₀ (by exact_mod_cast hs)]
    have : (s : ℝ) < (e : ℝ) := by exact_mod_cast hse
    linarith
  have hpow : (1 : ℝ) < ((e : ℝ) / (s : ℝ)) ^ ((1 : ℝ) / 14) :=
    (Real.one_lt_rpow_iff_of_pos (lt_trans one_pos hgt)).mpr
      (Or.inl ⟨hgt, by norm_num⟩)
  have := sub_pos.mpr hpow
  simpa [growthRate] using this

/-- C4: `doubling_time` over a fixed 14-row lookback of cumulative
cases returns `ln 2 / ln (1 + growth)` with
`growth = (end/start)^(1/14) - 1`, and returns no numeric result
(`none`) exactly when the series has fewer than 14 rows, or
`start ≤ 0`, or `end ≤ start` (over the exact reals, `growth ≤ 0` then
never fires on its own, witnessed by `0 < growthRate` below); on a
14-row series going from exactly 1000 to exactly 2000 it returns
exactly 14.0. -/
theorem claim_C4_doubling_time :
    (∀ xs : List ℚ, xs.length < 14 → calculate_doubling_time xs = none) ∧
    (∀ (xs : List ℚ) (s e : ℚ), 14 ≤ xs.length →
      (xs.drop (xs.length - 14)).head? = some s →
      (xs.drop (xs.length - 14)).getLast? = some e →
      ((s ≤ 0 ∨ e ≤ s) → calculate_doubling_time xs = none) ∧
      (0 < s → s < e →
        0 < growthRate s e ∧
        calculate_doubling_time xs =
          some (Real.log 2 / Real.log (1 + growthRate s e)))) ∧
    calculate_doubling_time (1000 :: (List.replicate 12 1500 ++ [2000])) = some 14 := by
  have hshort : ∀ xs : List ℚ, xs.length < 14 → calculate_doubling_time xs = none := by
    intro xs h
    simp only [calculate_doubling_time, if_pos h]
  have hgen : ∀ (xs : List ℚ) (s e : ℚ), 14 ≤ xs.length →
      (xs.drop (xs.length - 14)).head? = some s →
      (xs.drop (xs.length - 14)).getLast? = some e →
      ((s ≤ 0 ∨ e ≤ s) → calculate_doubling_time xs = none) ∧
      (0 < s → s < e →
        0 < growthRate s e ∧
        calculate_doubling_time xs =
          some (Real.log 2 / Real.log (1 + growthRate s e))) := by
    intro xs s e hlen hh hl
    have hnlt : ¬xs.length < 14 := not_lt.mpr hlen
    constructor
    · intro hbad
      simp only [calculate_doubling_time, if_neg hnlt, hh, hl, if_pos hbad]
    · intro hs hse
      have hg : 0 < growthRate s e := growthRate_pos s e hs hse
      have hnbad : ¬(s ≤ 0 ∨ e ≤ s) := by push_neg; exact ⟨hs, hse⟩
      refine ⟨hg, ?_⟩
      simp only [calculate_doubling_time, if_neg hnlt, hh, hl, if_neg hnbad,
        if_neg (not_le.mpr hg)]
  refine ⟨hshort, hgen, ?_⟩
  have hlen : (1000 :: (List.replicate 12 1500 ++ [2000]) : List ℚ).length = 14 := by
    simp
  have hdrop : ((1000 :: (List.replicate 12 1500 ++ [2000]) : List ℚ)).drop
      ((1000 :: (List.replicate 12 1500 ++ [2000]) : List ℚ).length - 14) =
      (1000 :: (List.replicate 12 1500 ++ [2000]) : List ℚ) := by
    rw [hlen]
    rfl
  have hh : ((1000 :: (List.replicate 12 1500 ++ [2000]) : List ℚ).drop
      ((1000 :: (List.replicate 12 1500 ++ [2000]) : List ℚ).length - 14)).head? =
      some 1000 := by
    rw [hdrop]
    rfl
  have hl : ((1000 :: (List.replicate 12 1500 ++ [2000]) : List ℚ).drop
      ((1000 :: (List.replicate 12 1500 ++ [2000]) : List ℚ).length - 14)).getLast? =
      some 2000 := by
    rw [hdrop]
    rfl
  obtain ⟨hg, heq⟩ :=
    (hgen (1000 :: (List.replicate 12 1500 ++ [2000])) 1000 2000 (le_of_eq hlen.symm)
      hh hl).2 (by norm_num) (by norm_num)
  rw [heq]
  have h2 : ((2000 : ℚ) : ℝ) / ((1000 : ℚ) : ℝ) = 2 := by norm_num
  have hone : (1 : ℝ) + growthRate 1000 2000 = (2 : ℝ) ^ ((1 : ℝ) / 14) := by
    simp only [growthRate]
    norm_num
  rw [hone, Real.log_rpow (by norm_num : (0 : ℝ) < 2)]
  have hlog : Real.log 2 ≠ 0 := ne_of_gt (Real.log_pos (by norm_num))
  refine congrArg some ?_
  rw [div_eq_iff (mul_ne_zero (by norm_num) hlog)]
  ring

/-- Witness for C4: the short-series guard on the empty series. -/
theorem claim_C4_doubling_time_witness :
    ([] : List ℚ).length < 14 ∧ calculate_doubling_time [] = none :=
  ⟨by decide, claim_C4_doubling_time.1 [] (by decide)⟩

/-- C5: building the time series from a raw source with zero valid rows
after parsing fails with the spec's `EmptyDataError`, and
`get_historical_df` then falls back to the seeded synthetic generator,
which produces exactly 365 rows and is a fixed function of the seeded
noise stream (`np.random.seed(42)` fixes that stream), so reseeding
identically reproduces every value, the first row's included. -/
theorem claim_C5_empty_fallback :
    (∀ raw : List RawEntry, parseRows raw = [] →
      buildStore raw = Except.error "EmptyDataError" ∧
      ∀ noise : ℕ → ℝ, get_historical_df raw noise = sampleHistoricalDf noise) ∧
    (∀ noise : ℕ → ℝ, (sampleHistoricalDf noise).length = 365) ∧
    (∀ noise noise2 : ℕ → ℝ, (∀ k, noise k = noise2 k) →
      sampleHistoricalDf noise = sampleHistoricalDf noise2 ∧
      (sampleHistoricalDf noise).head? = (sampleHistoricalDf noise2).head?) := by
  refine ⟨?_, ?_, ?_⟩
  · intro raw hraw
    have hb : buildStore raw = Except.error "EmptyDataError" := by
      simp [buildStore, hraw]
    exact ⟨hb, fun noise => by simp [get_historical_df, hb]⟩
  · intro noise
    simp [sampleHistoricalDf]
  · intro noise noise2 hk
    have hfun : noise = noise2 := funext hk
    exact ⟨by rw [hfun], by rw [hfun]⟩

/-- Witness for C5: the empty raw source triggers the fallback
generator. -/
theorem claim_C5_empty_fallback_witness :
    parseRows [] = [] ∧
      get_historical_df [] (fun _ => 0) = sampleHistoricalDf (fun _ => 0) :=
  ⟨rfl, (claim_C5_empty_fallback.1 [] rfl).2 (fun _ => 0)⟩

end PDS
